import Mathlib

/-!
Shallow embedding of the Fantastic-Films project/timeline state model.

Sources:
- `src/unnamed/part_002` (App): project store, active project, gallery,
  batch selection, batch zip export.
- `src/unnamed/part_000` (TimelineEditor): `moveVideo`, per-card delete,
  `generateThumbs` capture timestamps.
- `src/unnamed/part_001` (FrameProcessor): `processAutomaticFrames`
  capture timestamps.

Modelling conventions: `Date.now()` timestamps are `Nat` parameters
(`now`); `crypto.randomUUID()` / `URL.createObjectURL` results are
`String` parameters or a generator argument; the browser-side effect
`URL.revokeObjectURL` is recorded in a `revokedUrls` list carried by the
state; video timestamps (seconds) are rationals.  JS falsy checks on the
active-project id (`!activeProjectId`) are modelled as `none` or the
empty string.
-/

namespace FF

/-- Mirrors the DOM `File` objects consumed by `handleFiles`
(`file.name`, `file.type`). -/
structure MFile where
  name : String
  type : String
deriving DecidableEq, Repr

/-- Crop transform of a VideoItem (`{scale, x, y}` in part_002). -/
structure Crop where
  scale : ℚ
  x : ℚ
  y : ℚ
deriving DecidableEq, Repr

/-- `interface VideoItem` from part_002. -/
structure VideoItem where
  id : String
  file : MFile
  url : String
  name : String
  crop : Option Crop := none
deriving DecidableEq, Repr

/-- Provenance tag of a gallery item: `'inicio' | 'final' | 'manual'`. -/
inductive GalleryType where
  | inicio
  | final
  | manual
deriving DecidableEq, Repr

/-- `interface GalleryItem` from part_002. -/
structure GalleryItem where
  id : String
  src : String
  type : GalleryType
  videoName : String
  createdAt : Nat
deriving DecidableEq, Repr

/-- `type AspectRatio = '16:9' | '9:16' | '1:1'` from part_002
(renamed here; the field below is the source's `aspectRatio`). -/
inductive AspectKind where
  | sixteenNine
  | nineSixteen
  | oneOne
deriving DecidableEq, Repr

/-- `interface Project` from part_002 (`aspect` is the source field
`aspectRatio`). -/
structure Project where
  id : String
  name : String
  aspect : AspectKind
  createdAt : Nat
  lastModified : Nat
  videos : List VideoItem
  galleryItems : List GalleryItem
deriving DecidableEq, Repr

/-- `currentView` values: `'timeline' | 'gallery'`. -/
inductive EditorView where
  | timeline
  | gallery
deriving DecidableEq, Repr

/-- The App component's state relevant to the project store:
`projects`, `activeProjectId`, `currentView`, `selectedGalleryIds`
(the JS `Set` modelled as an insertion-ordered duplicate-free list),
`isCreatingProject`; plus `revokedUrls`, the record of
`URL.revokeObjectURL` calls issued so far (browser side effect). -/
structure AppState where
  projects : List Project
  activeProjectId : Option String
  currentView : EditorView
  selectedGalleryIds : List String
  isCreatingProject : Bool
  revokedUrls : List String
deriving DecidableEq, Repr

/-- `projects.find(p => p.id === pid)` (observation used throughout). -/
def findProject (st : AppState) (pid : String) : Option Project :=
  st.projects.find? (fun q => q.id == pid)

/-- `const activeProject = projects.find(p => p.id === activeProjectId)`:
when `activeProjectId` is `null` no string id matches it. -/
def activeProject (st : AppState) : Option Project :=
  match st.activeProjectId with
  | none => none
  | some pid => findProject st pid

/-- JS `String.prototype.trim()` (the `confirmCreateProject` guard
calls `newProjectName.trim()`): whitespace stripped from both ends. -/
def jsTrim (s : String) : String :=
  String.mk (((s.data.dropWhile Char.isWhitespace).reverse.dropWhile
    Char.isWhitespace).reverse)

/-- `confirmCreateProject` (part_002, lines 79-96): guard
`if (!newProjectName.trim()) return;`, then the new project is put at
the FRONT of the list (`[newProject, ...prev]`), becomes active, and the
view is set to `'timeline'`.  `newId`/`now` stand for
`crypto.randomUUID()` and `Date.now()`. -/
def confirmCreateProject (name : String) (ar : AspectKind) (newId : String)
    (now : Nat) (st : AppState) : AppState :=
  if jsTrim name == "" then st
  else
    let newProject : Project :=
      { id := newId, name := name, aspect := ar, createdAt := now
      , lastModified := now, videos := [], galleryItems := [] }
    { st with
      projects := newProject :: st.projects
    , activeProjectId := some newId
    , currentView := EditorView.timeline
    , isCreatingProject := false }

/-- `deleteProject` (part_002, lines 98-107), with the `confirm()` dialog
accepted: revokes the object URLs of the deleted project's videos,
filters the project out, and clears the active id only when the deleted
project was the active one. -/
def deleteProject (pid : String) (st : AppState) : AppState :=
  let urls :=
    match findProject st pid with
    | some p => p.videos.map VideoItem.url
    | none => []
  { st with
    revokedUrls := st.revokedUrls ++ urls
  , projects := st.projects.filter (fun p => p.id != pid)
  , activeProjectId :=
      if st.activeProjectId == some pid then none else st.activeProjectId }

/-- `openProject` (part_002, lines 109-114): sets the active id, resets
the view to the timeline and clears the gallery selection. -/
def openProject (pid : String) (st : AppState) : AppState :=
  { st with
    activeProjectId := some pid
  , currentView := EditorView.timeline
  , selectedGalleryIds := [] }

/-- `exitProject` (part_002, lines 116-119). -/
def exitProject (st : AppState) : AppState :=
  { st with activeProjectId := none }

/-- `updateActiveProjectVideos` (part_002, lines 123-139), functional
form (`newVideosOrFn` as a function; passing an array is the constant
function): no-op when `!activeProjectId` (null or empty string),
otherwise rewrites the matching project's `videos` with `f` and stamps
`lastModified := Date.now()`.  Every other project is returned as-is. -/
def updateActiveProjectVideos (f : List VideoItem → List VideoItem)
    (now : Nat) (st : AppState) : AppState :=
  match st.activeProjectId with
  | none => st
  | some pid =>
    if pid == "" then st
    else
      { st with
        projects := st.projects.map (fun proj =>
          if proj.id == pid then
            { proj with videos := f proj.videos, lastModified := now }
          else proj) }

/-- `file.type.startsWith('video/')` — the import filter, expressed on
the underlying character lists. -/
def isVideoFile (fl : MFile) : Bool :=
  List.isPrefixOf ("video/").data fl.type.data

/-- The `newVideos` array built by `handleFiles`: the accepted files in
their original order, each given a fresh id and object URL (`gen i`
stands for the `crypto.randomUUID()` / `URL.createObjectURL` pair of the
i-th accepted file). -/
def newVideoItems (fs : List MFile) (gen : Nat → String × String) :
    List VideoItem :=
  ((fs.filter isVideoFile).enum).map (fun pr =>
    { id := (gen pr.1).1, file := pr.2, url := (gen pr.1).2
    , name := pr.2.name })

/-- `handleFiles` (part_002, lines 151-165): guard
`if (!files || !activeProjectId) return;`; accepted files are appended
to the end of the active project's `videos` (through
`updateActiveProjectVideos`), then the view switches to the timeline. -/
def handleFiles (files : Option (List MFile)) (gen : Nat → String × String)
    (now : Nat) (st : AppState) : AppState :=
  match files, st.activeProjectId with
  | none, _ => st
  | some _, none => st
  | some fs, some pid =>
    if pid == "" then st
    else
      let st' :=
        updateActiveProjectVideos (fun prev => prev ++ newVideoItems fs gen)
          now st
      { st' with currentView := EditorView.timeline }

/-- `addToGallery` (part_002, lines 169-188): prepends the new item to
the active project's `galleryItems` and stamps `lastModified`. -/
def addToGallery (src : String) (ty : GalleryType) (videoName : String)
    (newId : String) (now : Nat) (st : AppState) : AppState :=
  match st.activeProjectId with
  | none => st
  | some pid =>
    if pid == "" then st
    else
      let newItem : GalleryItem :=
        { id := newId, src := src, type := ty, videoName := videoName
        , createdAt := now }
      { st with
        projects := st.projects.map (fun proj =>
          if proj.id == pid then
            { proj with
              galleryItems := newItem :: proj.galleryItems
            , lastModified := now }
          else proj) }

/-- `removeFromGallery` (part_002, lines 190-206): filters the item out
of the active project's `galleryItems` and deletes the id from the
selection set.  Note: it does NOT touch `lastModified`. -/
def removeFromGallery (gid : String) (st : AppState) : AppState :=
  match st.activeProjectId with
  | none => st
  | some pid =>
    if pid == "" then st
    else
      { st with
        projects := st.projects.map (fun proj =>
          if proj.id == pid then
            { proj with
              galleryItems :=
                proj.galleryItems.filter (fun item => item.id != gid) }
          else proj)
      , selectedGalleryIds :=
          st.selectedGalleryIds.filter (fun x => x != gid) }

/-- `toggleSelection` (part_002, lines 218-228); JS `Set` insertion
order: a newly selected id goes to the back. -/
def toggleSelection (gid : String) (st : AppState) : AppState :=
  { st with
    selectedGalleryIds :=
      if st.selectedGalleryIds.contains gid then
        st.selectedGalleryIds.filter (fun x => x != gid)
      else st.selectedGalleryIds ++ [gid] }

/-- `deleteSelected` (part_002, lines 239-251), `confirm()` accepted:
guard `if (!activeProject) return;`, bulk-removes the selected gallery
items of the active project and clears the selection.  Note: it does
NOT touch `lastModified`. -/
def deleteSelected (st : AppState) : AppState :=
  match activeProject st with
  | none => st
  | some _ =>
    match st.activeProjectId with
    | none => st
    | some pid =>
      { st with
        projects := st.projects.map (fun proj =>
          if proj.id == pid then
            { proj with
              galleryItems := proj.galleryItems.filter (fun item =>
                !(st.selectedGalleryIds.contains item.id)) }
          else proj)
      , selectedGalleryIds := [] }

/-- The sidebar view buttons (part_002, lines 339-380):
`onClick={() => activeProjectId && setCurrentView(v)}` — view switches
are only effective while a project is active, and touch nothing but
`currentView`. -/
def switchView (v : EditorView) (st : AppState) : AppState :=
  match st.activeProjectId with
  | none => st
  | some pid => if pid == "" then st else { st with currentView := v }

/-- The `VideoCard` delete button (part_000, line 295):
`onDelete={() => setVideos(v => v.filter(i => i.id !== video.id))}`,
routed through `updateActiveProjectVideos`.  No `URL.revokeObjectURL`
call is made here. -/
def deleteVideo (vid : String) (now : Nat) (st : AppState) : AppState :=
  updateActiveProjectVideos (fun v => v.filter (fun i => i.id != vid)) now st

/-- Direction argument of `moveVideo`. -/
inductive MoveDir where
  | left
  | right
deriving DecidableEq, Repr

/-- `moveVideo` (part_000, lines 270-278) on the videos list: adjacent
swap with the left/right neighbour, guarded by
`direction === 'left' && index > 0` and
`direction === 'right' && index < videos.length - 1`; otherwise the
list is returned unchanged.  The UI only ever supplies a rendering
index (`0 ≤ index < videos.length`), for which the guarded lookups
always succeed; failed lookups leave the list unchanged. -/
def moveVideoList (l : List VideoItem) (index : Nat) (dir : MoveDir) :
    List VideoItem :=
  match dir with
  | MoveDir.left =>
    if 0 < index then
      match l.get? index, l.get? (index - 1) with
      | some a, some b => (l.set (index - 1) a).set index b
      | _, _ => l
    else l
  | MoveDir.right =>
    if index < l.length - 1 then
      match l.get? index, l.get? (index + 1) with
      | some a, some b => (l.set (index + 1) a).set index b
      | _, _ => l
    else l

/-- Index of the last `'.'` in a character list (JS
`String.prototype.lastIndexOf('.')`, `none` for -1). -/
def lastDotIdx : List Char → Option Nat
  | [] => none
  | c :: cs =>
    match lastDotIdx cs with
    | some i => some (i + 1)
    | none => if c = '.' then some 0 else none

/-- `videoName.substring(0, videoName.lastIndexOf('.')) || videoName`
(part_002, line 267): the extension is stripped, except that an empty
prefix (no dot, or a leading dot) is falsy and falls back to the full
name. -/
def nameOnlyOf (s : String) : String :=
  match lastDotIdx s.data with
  | some i => if i = 0 then s else String.mk (s.data.take i)
  | none => s

/-- String form of a gallery type tag (the TS union is string-valued). -/
def typeStr : GalleryType → String
  | GalleryType.inicio => "inicio"
  | GalleryType.final => "final"
  | GalleryType.manual => "manual"

/-- The zip entry name built by `downloadBatchZip` (part_002, line 268):
`` `${nameOnly}_${item.type}_${item.id.slice(0,4)}.png` ``. -/
def batchFileName (item : GalleryItem) : String :=
  nameOnlyOf item.videoName ++ "_" ++ typeStr item.type ++ "_"
    ++ item.id.take 4 ++ ".png"

/-- `item.src.split(',')[1]` (part_002, line 266); a missing second
component (JS `undefined`) is modelled as the empty string — the entry
content is irrelevant to the naming/counting claims. -/
def base64DataOf (item : GalleryItem) : String :=
  (item.src.splitOn (",")).getD 1 ""

/-- `folder.file(fileName, data)` in JSZip: adding a file under a name
that is already present REPLACES that entry; otherwise the entry is
appended. -/
def zipFileAdd (entries : List (String × String)) (nm dat : String) :
    List (String × String) :=
  if entries.any (fun e => e.1 == nm) then
    entries.map (fun e => if e.1 == nm then (nm, dat) else e)
  else entries ++ [(nm, dat)]

/-- One iteration of the `selectedGalleryIds.forEach` loop of
`downloadBatchZip` (part_002, lines 263-271): look the id up in the
active project's gallery; if found, add the named file to the folder. -/
def zipStep (gallery : List GalleryItem) (acc : List (String × String))
    (gid : String) : List (String × String) :=
  match gallery.find? (fun i => i.id == gid) with
  | some item => zipFileAdd acc (batchFileName item) (base64DataOf item)
  | none => acc

/-- The entries of the archive produced by `downloadBatchZip`
(part_002, lines 253-286) for a selection (in `Set` insertion order)
against the active project's `galleryItems`. -/
def downloadBatchZipEntries (selected : List String)
    (gallery : List GalleryItem) : List (String × String) :=
  selected.foldl (zipStep gallery) []

/-- `generateThumbs` in `VideoCard` (part_000, lines 186-198):
first-frame thumbnail is requested via `extract(0.1)`. -/
def thumbFirstCaptureTime : ℚ := (0.1 : ℚ)

/-- `generateThumbs` (part_000, line 198): last-frame thumbnail is
requested via `extract(Math.max(0, tempVideo.duration - 0.1))`. -/
def thumbLastCaptureTime (duration : ℚ) : ℚ :=
  max 0 (duration - (0.1 : ℚ))

/-- `processAutomaticFrames` (part_001, line 58): the first frame is
requested via `captureAtTime(0)` — exactly 0, no epsilon. -/
def autoFirstCaptureTime : ℚ := 0

/-- `processAutomaticFrames` (part_001, line 60): the last frame is
requested via `captureAtTime(Math.max(0, video.duration - 0.1))`. -/
def autoLastCaptureTime (duration : ℚ) : ℚ :=
  max 0 (duration - (0.1 : ℚ))

/-- The active-id weak-reference invariant: the active project id, when
present, names a project of the store. -/
def activeOk (st : AppState) : Prop :=
  match st.activeProjectId with
  | none => True
  | some a => (st.projects.any (fun p => p.id == a)) = true

/-- Per-project timestamp invariant: `lastModified ≥ createdAt`. -/
def invariantLM (st : AppState) : Prop :=
  ∀ q ∈ st.projects, q.createdAt ≤ q.lastModified

/-- Observed `lastModified` of the project named `pid`. -/
def lmOf (st : AppState) (pid : String) : Option Nat :=
  (findProject st pid).map Project.lastModified

/-! Concrete states used to exercise the model on specific inputs. -/

/-- A captured frame of project `P` below. -/
def gC1 : GalleryItem :=
  { id := "g1", src := "s", type := GalleryType.manual
  , videoName := "v.mp4", createdAt := 4 }

/-- A project holding one gallery item, `lastModified = 5`. -/
def pC1 : Project :=
  { id := "P", name := "Proj", aspect := AspectKind.sixteenNine
  , createdAt := 3, lastModified := 5, videos := [], galleryItems := [gC1] }

/-- Store with `pC1` active and its single gallery item selected. -/
def stC1 : AppState :=
  { projects := [pC1], activeProjectId := some ("P")
  , currentView := EditorView.gallery, selectedGalleryIds := ["g1"]
  , isCreatingProject := false, revokedUrls := [] }

/-- Two gallery items that collide on the derived zip entry name: same
video name, same tag, ids sharing their first four characters. -/
def galC2 : List GalleryItem :=
  [ { id := "aaaa1", src := "data:image/png;base64,AAA"
    , type := GalleryType.inicio, videoName := "clip.mp4", createdAt := 1 }
  , { id := "aaaa2", src := "data:image/png;base64,BBB"
    , type := GalleryType.inicio, videoName := "clip.mp4", createdAt := 2 } ]

/-- Two gallery items whose derived zip entry names differ. -/
def galW2 : List GalleryItem :=
  [ { id := "aaaa1", src := "data:image/png;base64,AAA"
    , type := GalleryType.inicio, videoName := "clip.mp4", createdAt := 1 }
  , { id := "bbbb1", src := "data:image/png;base64,BBB"
    , type := GalleryType.final, videoName := "clip.mp4", createdAt := 2 } ]

/-- A store already holding one project `A` (none active). -/
def stC3 : AppState :=
  { projects :=
      [ { id := "A", name := "First", aspect := AspectKind.oneOne
        , createdAt := 1, lastModified := 1, videos := [], galleryItems := [] } ]
  , activeProjectId := none, currentView := EditorView.timeline
  , selectedGalleryIds := [], isCreatingProject := true, revokedUrls := [] }

/-- A video with playback handle `u1`, member of the project below. -/
def vC4 : VideoItem :=
  { id := "v1", file := { name := "v.mp4", type := "video/mp4" }
  , url := "u1", name := "v.mp4" }

/-- Active project holding the single video `vC4`. -/
def pC4 : Project :=
  { id := "P", name := "Proj", aspect := AspectKind.sixteenNine
  , createdAt := 3, lastModified := 5, videos := [vC4], galleryItems := [] }

/-- Store with `pC4` active; no handle revoked yet. -/
def stC4 : AppState :=
  { projects := [pC4], activeProjectId := some ("P")
  , currentView := EditorView.timeline, selectedGalleryIds := []
  , isCreatingProject := false, revokedUrls := [] }

/-- Import batch: files 1 and 3 are videos, file 2 is not. -/
def filesW5 : List MFile :=
  [ { name := "a.mp4", type := "video/mp4" }
  , { name := "b.png", type := "image/png" }
  , { name := "c.mp4", type := "video/quicktime" } ]

/-- Fresh id/object-URL generator for the imported files. -/
def genW5 : Nat → String × String :=
  fun i => (String.mk (Nat.toDigits 10 i) ++ "id", String.mk (Nat.toDigits 10 i) ++ "url")

/-- Active project already holding one video. -/
def pW5 : Project :=
  { id := "P", name := "Proj", aspect := AspectKind.nineSixteen
  , createdAt := 2, lastModified := 4
  , videos :=
      [ { id := "v0", file := { name := "v0.mp4", type := "video/mp4" }
        , url := "u0", name := "v0.mp4" } ]
  , galleryItems := [] }

/-- Store with `pW5` active. -/
def stW5 : AppState :=
  { projects := [pW5], activeProjectId := some ("P")
  , currentView := EditorView.gallery, selectedGalleryIds := []
  , isCreatingProject := false, revokedUrls := [] }

/-- Projects `A` and `B` for the deletion scenario. -/
def pA7 : Project :=
  { id := "A", name := "ProjA", aspect := AspectKind.sixteenNine
  , createdAt := 1, lastModified := 2
  , videos :=
      [ { id := "va", file := { name := "a.mp4", type := "video/mp4" }
        , url := "ua", name := "a.mp4" } ]
  , galleryItems := [] }

/-- Second project of the deletion scenario (the active one). -/
def pB7 : Project :=
  { id := "B", name := "ProjB", aspect := AspectKind.oneOne
  , createdAt := 3, lastModified := 6, videos := []
  , galleryItems :=
      [ { id := "gb", src := "sb", type := GalleryType.inicio
        , videoName := "a.mp4", createdAt := 5 } ] }

/-- Store holding `A` and `B` with `B` active. -/
def stW7 : AppState :=
  { projects := [pA7, pB7], activeProjectId := some ("B")
  , currentView := EditorView.gallery, selectedGalleryIds := ["gb"]
  , isCreatingProject := false, revokedUrls := [] }

/-- Active project with two gallery items, both selected. -/
def pW9 : Project :=
  { id := "P", name := "Proj", aspect := AspectKind.sixteenNine
  , createdAt := 1, lastModified := 4, videos := []
  , galleryItems :=
      [ { id := "g1", src := "s1", type := GalleryType.inicio
        , videoName := "v.mp4", createdAt := 2 }
      , { id := "g2", src := "s2", type := GalleryType.manual
        , videoName := "v.mp4", createdAt := 3 } ] }

/-- Store with `pW9` active and both its items selected. -/
def stW9 : AppState :=
  { projects := [pW9], activeProjectId := some ("P")
  , currentView := EditorView.gallery, selectedGalleryIds := ["g1", "g2"]
  , isCreatingProject := false, revokedUrls := [] }

/-- Store with two projects and no active project. -/
def stN10 : AppState :=
  { projects := [pA7, pB7], activeProjectId := none
  , currentView := EditorView.timeline, selectedGalleryIds := []
  , isCreatingProject := false, revokedUrls := [] }

/-- Store with two projects, `B` active. -/
def stA10 : AppState :=
  { projects := [pA7, pB7], activeProjectId := some ("B")
  , currentView := EditorView.timeline, selectedGalleryIds := []
  , isCreatingProject := false, revokedUrls := [] }

/-! Generic list lemmas used by several claims. -/

theorem filter_self_eq {α : Type} (p : α → Bool) (l : List α) :
    (l.filter p).filter p = l.filter p := by
  induction l with
  | nil => rfl
  | cons x t ih =>
    by_cases h : p x = true
    · simp [List.filter_cons, h, ih]
    · simp [List.filter_cons, h, ih]

theorem map_self_eq {α : Type} (g : α → α) (h : ∀ x, g (g x) = g x)
    (l : List α) : (l.map g).map g = l.map g := by
  induction l with
  | nil => rfl
  | cons x t ih => simp [List.map_cons, h, ih]

theorem find?_filter_of_imp {α : Type} (l : List α) (p q : α → Bool)
    (h : ∀ x, p x = true → q x = true) :
    (l.filter q).find? p = l.find? p := by
  induction l with
  | nil => rfl
  | cons x t ih =>
    by_cases hq : q x = true
    · by_cases hp : p x = true
      · simp [List.filter_cons, hq, List.find?_cons, hp]
      · simp [List.filter_cons, hq, List.find?_cons, hp, ih]
    · have hp : p x = false := by
        cases hpx : p x
        · rfl
        · exact absurd (h x hpx) hq
      simp [List.filter_cons, hq, List.find?_cons, hp, ih]

theorem find?_map_update (l : List Project) (pid : String)
    (F : Project → Project) (hid : ∀ x, (F x).id = x.id) :
    ((l.map (fun proj => if proj.id == pid then F proj else proj)).find?
        (fun q => q.id == pid))
      = (l.find? (fun q => q.id == pid)).map F := by
  induction l with
  | nil => rfl
  | cons x t ih =>
    cases hb : (x.id == pid) with
    | true =>
      have hFx : ((F x).id == pid) = true := by rw [hid]; exact hb
      simp only [List.map_cons, if_pos hb]
      rw [@List.find?_cons_of_pos Project (fun q => q.id == pid) _ _ hFx,
        @List.find?_cons_of_pos Project (fun q => q.id == pid) _ _ hb]
      rfl
    | false =>
      have hb' : ¬ ((x.id == pid) = true) := by simp [hb]
      simp only [List.map_cons, if_neg hb']
      rw [@List.find?_cons_of_neg Project (fun q => q.id == pid) _ _ hb',
        @List.find?_cons_of_neg Project (fun q => q.id == pid) _ _ hb', ih]

theorem filter_ne_map_update (l : List Project) (pid : String)
    (F : Project → Project) (hid : ∀ x, (F x).id = x.id) :
    ((l.map (fun proj => if proj.id == pid then F proj else proj)).filter
        (fun q => q.id != pid))
      = l.filter (fun q => q.id != pid) := by
  induction l with
  | nil => rfl
  | cons x t ih =>
    cases hb : (x.id == pid) with
    | true =>
      have hFx : ¬ (((F x).id != pid) = true) := by
        simp [bne, hid, hb]
      have hx : ¬ ((x.id != pid) = true) := by simp [bne, hb]
      simp only [List.map_cons, if_pos hb]
      rw [@List.filter_cons_of_neg Project (fun q => q.id != pid) _ _ hFx,
        @List.filter_cons_of_neg Project (fun q => q.id != pid) _ _ hx, ih]
    | false =>
      have hb' : ¬ ((x.id == pid) = true) := by simp [hb]
      have hx : (x.id != pid) = true := by simp [bne, hb]
      simp only [List.map_cons, if_neg hb']
      rw [@List.filter_cons_of_pos Project (fun q => q.id != pid) _ _ hx,
        @List.filter_cons_of_pos Project (fun q => q.id != pid) _ _ hx, ih]

theorem set_set_swap_perm {α : Type} :
    ∀ (l : List α) (j : Nat) (a b : α),
      l.get? j = some a → l.get? (j + 1) = some b →
      ((l.set j b).set (j + 1) a).Perm l := by
  intro l
  induction l with
  | nil => intro j a b ha _; exact Option.noConfusion ha
  | cons x t ih =>
    intro j a b ha hb
    cases j with
    | zero =>
      cases t with
      | nil => exact Option.noConfusion hb
      | cons y t' =>
        have hax : x = a := Option.some.inj ha
        have hby : y = b := Option.some.inj hb
        subst hax; subst hby
        exact List.Perm.swap x y t'
    | succ j' =>
      have ha' : t.get? j' = some a := ha
      have hb' : t.get? (j' + 1) = some b := hb
      exact List.Perm.cons x (ih j' a b ha' hb')

theorem moveVideoList_perm (l : List VideoItem) (index : Nat) (d : MoveDir) :
    (moveVideoList l index d).Perm l := by
  cases d with
  | left =>
    simp only [moveVideoList]
    split
    · rename_i hpos
      split
      · rename_i a b ha hb
        have hidx : index - 1 + 1 = index := Nat.succ_pred_eq_of_pos hpos
        have ha' : l.get? (index - 1 + 1) = some a := by rw [hidx]; exact ha
        have h2 := set_set_swap_perm l (index - 1) b a hb ha'
        rwa [hidx] at h2
      · exact List.Perm.refl l
    · exact List.Perm.refl l
  | right =>
    simp only [moveVideoList]
    split
    · split
      · rename_i a b ha hb
        rw [List.set_comm a b l (Nat.succ_ne_self index)]
        exact set_set_swap_perm l index a b ha hb
      · exact List.Perm.refl l
    · exact List.Perm.refl l

theorem foldl_moveVideoList_perm (ops : List (Nat × MoveDir)) :
    ∀ l : List VideoItem,
      (ops.foldl (fun acc op => moveVideoList acc op.1 op.2) l).Perm l := by
  induction ops with
  | nil => intro l; exact List.Perm.refl l
  | cons op rest ih =>
    intro l
    exact (ih (moveVideoList l op.1 op.2)).trans
      (moveVideoList_perm l op.1 op.2)

theorem filterMap_length_of_isSome {α β : Type} (g : α → Option β) :
    ∀ l : List α, (∀ x ∈ l, (g x).isSome = true) →
      (l.filterMap g).length = l.length := by
  intro l
  induction l with
  | nil => intro _; rfl
  | cons x t ih =>
    intro h
    obtain ⟨b, hb⟩ := Option.isSome_iff_exists.mp (h x (by simp))
    have ht : ∀ y ∈ t, (g y).isSome = true := fun y hy => h y (by simp [hy])
    simp [List.filterMap_cons, hb, ih ht]

theorem zipFileAdd_of_fresh (entries : List (String × String)) (nm dat : String)
    (h : nm ∉ entries.map Prod.fst) :
    zipFileAdd entries nm dat = entries ++ [(nm, dat)] := by
  have hany : (entries.any (fun e => e.1 == nm)) = false := by
    rw [List.any_eq_false]
    intro e he hbe
    apply h
    have he1 : e.1 = nm := by simpa using hbe
    rw [← he1]
    exact List.mem_map_of_mem Prod.fst he
  rw [zipFileAdd, if_neg (by simp [hany])]

theorem zip_foldl_spec (gallery : List GalleryItem) :
    ∀ (selected : List String) (acc : List (String × String)),
      (∀ gid ∈ selected,
        ((gallery.find? (fun i => i.id == gid)).isSome) = true) →
      ((acc.map Prod.fst) ++ selected.filterMap (fun gid =>
          (gallery.find? (fun i => i.id == gid)).map batchFileName)).Nodup →
      selected.foldl (zipStep gallery) acc
        = acc ++ selected.filterMap (fun gid =>
            (gallery.find? (fun i => i.id == gid)).map (fun it =>
              (batchFileName it, base64DataOf it))) := by
  intro selected
  induction selected with
  | nil => intro acc _ _; simp
  | cons gid rest ih =>
    intro acc hfound hnd
    obtain ⟨item, hit⟩ :=
      Option.isSome_iff_exists.mp (hfound gid (by simp))
    have hrest : ∀ g ∈ rest,
        ((gallery.find? (fun i => i.id == g)).isSome) = true :=
      fun g hg => hfound g (by simp [hg])
    rw [List.filterMap_cons] at hnd
    rw [hit] at hnd
    simp only [Option.map_some'] at hnd
    have hnm : batchFileName item ∉ acc.map Prod.fst := by
      rcases List.nodup_append.mp hnd with ⟨_, _, hdisj⟩
      intro hmem
      exact hdisj hmem (by simp)
    have hstep : zipStep gallery acc gid
        = acc ++ [(batchFileName item, base64DataOf item)] := by
      simp only [zipStep, hit]
      exact zipFileAdd_of_fresh acc _ _ hnm
    have hnd' : (((acc ++ [(batchFileName item, base64DataOf item)]).map
          Prod.fst)
        ++ rest.filterMap (fun g =>
            (gallery.find? (fun i => i.id == g)).map batchFileName)).Nodup := by
      simpa [List.append_assoc] using hnd
    rw [List.foldl_cons, hstep, ih _ hrest hnd', List.filterMap_cons, hit]
    simp [List.append_assoc]

/-! The claims. -/

/-- C8: for every sequence of `reorder(index, direction)` calls on a
project's videos, the multiset of VideoItem ids is invariant; moreover a
call at either boundary (index 0 moving left, the last index moving
right) leaves the list unchanged. -/
theorem c8_reorder_id_multiset_invariant (l : List VideoItem)
    (ops : List (Nat × MoveDir)) :
    (((ops.foldl (fun acc op => moveVideoList acc op.1 op.2) l).map
        VideoItem.id : List String) : Multiset String)
      = ((l.map VideoItem.id : List String) : Multiset String)
  ∧ moveVideoList l 0 MoveDir.left = l
  ∧ moveVideoList l (l.length - 1) MoveDir.right = l := by
  refine ⟨?_, ?_, ?_⟩
  · exact Multiset.coe_eq_coe.mpr
      (List.Perm.map VideoItem.id (foldl_moveVideoList_perm ops l))
  · simp [moveVideoList]
  · simp [moveVideoList]

/-- C7: deleting the active project clears the active id; deleting a
non-active project leaves the active id and the active project's record
unchanged; and `deleteProject` preserves the invariant that the active
id, when set, names a project present in the store. -/
theorem c7_deleteProject_active (st : AppState) (pid aid : String) :
    (st.activeProjectId = some pid →
      (deleteProject pid st).activeProjectId = none)
  ∧ (st.activeProjectId = some aid → aid ≠ pid →
      (deleteProject pid st).activeProjectId = some aid
      ∧ findProject (deleteProject pid st) aid = findProject st aid)
  ∧ (activeOk st → activeOk (deleteProject pid st)) := by
  have hproj : (deleteProject pid st).projects
      = st.projects.filter (fun p => p.id != pid) := by
    simp [deleteProject]
  refine ⟨?_, ?_, ?_⟩
  · intro h
    simp [deleteProject, h]
  · intro h hne
    constructor
    · simp [deleteProject, h, hne]
    · rw [findProject, findProject, hproj]
      exact find?_filter_of_imp _ _ _ (fun x hx => by
        have hxid : x.id = aid := by simpa using hx
        simp [bne, hxid, hne])
  · intro hok
    by_cases hcase : st.activeProjectId = some pid
    · have hnone : (deleteProject pid st).activeProjectId = none := by
        simp [deleteProject, hcase]
      simp [activeOk, hnone]
    · have hsame : (deleteProject pid st).activeProjectId
          = st.activeProjectId := by
        have : ¬ ((st.activeProjectId == some pid) = true) := by
          simpa using hcase
        simp [deleteProject, this]
      cases hact : st.activeProjectId with
      | none => simp [activeOk, hsame, hact]
      | some a =>
        have ha_ne : a ≠ pid := fun hh => hcase (by rw [hact, hh])
        have hok' : (st.projects.any (fun p => p.id == a)) = true := by
          simpa [activeOk, hact] using hok
        obtain ⟨x, hx, hxa⟩ := List.any_eq_true.mp hok'
        have hxid : x.id = a := by simpa using hxa
        have hmem : ((st.projects.filter (fun p => p.id != pid)).any
            (fun p => p.id == a)) = true :=
          List.any_eq_true.mpr
            ⟨x, List.mem_filter.mpr ⟨hx, by simp [bne, hxid, ha_ne]⟩, hxa⟩
        have hsome : (deleteProject pid st).activeProjectId = some a := by
          rw [hsame, hact]
        simp only [activeOk, hsome, hproj]
        exact hmem

/-- C10: with no active project, each per-project mutation (updating
videos, importing files, adding to the gallery, removing a gallery
item) is a complete no-op on the state; with an active project `pid`,
each of them leaves every project other than `pid` unchanged. -/
theorem c10_mutations_frame (st : AppState) (pid : String)
    (f : List VideoItem → List VideoItem) (files : List MFile)
    (gen : Nat → String × String) (src videoName newId gid : String)
    (ty : GalleryType) (now : Nat) :
    (st.activeProjectId = none →
        updateActiveProjectVideos f now st = st
      ∧ handleFiles (some files) gen now st = st
      ∧ addToGallery src ty videoName newId now st = st
      ∧ removeFromGallery gid st = st)
  ∧ (st.activeProjectId = some pid →
        ((updateActiveProjectVideos f now st).projects.filter
            (fun q => q.id != pid))
          = st.projects.filter (fun q => q.id != pid)
      ∧ ((handleFiles (some files) gen now st).projects.filter
            (fun q => q.id != pid))
          = st.projects.filter (fun q => q.id != pid)
      ∧ ((addToGallery src ty videoName newId now st).projects.filter
            (fun q => q.id != pid))
          = st.projects.filter (fun q => q.id != pid)
      ∧ ((removeFromGallery gid st).projects.filter
            (fun q => q.id != pid))
          = st.projects.filter (fun q => q.id != pid)) := by
  constructor
  · intro h
    refine ⟨?_, ?_, ?_, ?_⟩ <;>
      simp [updateActiveProjectVideos, handleFiles, addToGallery,
        removeFromGallery, h]
  · intro h
    by_cases hpid : pid = ""
    · subst hpid
      refine ⟨?_, ?_, ?_, ?_⟩ <;>
        simp [updateActiveProjectVideos, handleFiles, addToGallery,
          removeFromGallery, h]
    · have hcond : ¬ ((pid == "") = true) := by simpa using hpid
      have h1 : (updateActiveProjectVideos f now st).projects
          = st.projects.map (fun proj =>
              if proj.id == pid then
                { proj with videos := f proj.videos, lastModified := now }
              else proj) := by
        simp [updateActiveProjectVideos, h, hcond]
      have h2 : (handleFiles (some files) gen now st).projects
          = st.projects.map (fun proj =>
              if proj.id == pid then
                { proj with
                  videos := proj.videos ++ newVideoItems files gen
                , lastModified := now }
              else proj) := by
        simp [handleFiles, updateActiveProjectVideos, h, hcond]
      have h3 : (addToGallery src ty videoName newId now st).projects
          = st.projects.map (fun proj =>
              if proj.id == pid then
                { proj with
                  galleryItems :=
                    { id := newId, src := src, type := ty
                    , videoName := videoName, createdAt := now }
                      :: proj.galleryItems
                , lastModified := now }
              else proj) := by
        simp [addToGallery, h, hcond]
      have h4 : (removeFromGallery gid st).projects
          = st.projects.map (fun proj =>
              if proj.id == pid then
                { proj with
                  galleryItems :=
                    proj.galleryItems.filter (fun item => item.id != gid) }
              else proj) := by
        simp [removeFromGallery, h, hcond]
      refine ⟨?_, ?_, ?_, ?_⟩
      · rw [h1]; exact filter_ne_map_update _ _ _ (fun x => rfl)
      · rw [h2]; exact filter_ne_map_update _ _ _ (fun x => rfl)
      · rw [h3]; exact filter_ne_map_update _ _ _ (fun x => rfl)
      · rw [h4]; exact filter_ne_map_update _ _ _ (fun x => rfl)

/-- Witness for C7: in the two-project store `stW7` (B active),
deleting B clears the active id, while deleting A keeps B active and
untouched, and the weak-reference invariant survives. -/
theorem c7_deleteProject_active_witness :
    (deleteProject ("B") stW7).activeProjectId = none
  ∧ (deleteProject ("A") stW7).activeProjectId = some ("B")
  ∧ findProject (deleteProject ("A") stW7) ("B") = findProject stW7 ("B")
  ∧ activeOk (deleteProject ("A") stW7) :=
  ⟨(c7_deleteProject_active stW7 ("B") ("B")).1 rfl,
   ((c7_deleteProject_active stW7 ("A") ("B")).2.1 rfl (by decide)).1,
   ((c7_deleteProject_active stW7 ("A") ("B")).2.1 rfl (by decide)).2,
   (c7_deleteProject_active stW7 ("A") ("B")).2.2 (by
     show (stW7.projects.any (fun p => p.id == ("B"))) = true
     decide)⟩

/-- Witness for C10 at the concrete stores `stN10` (no active project)
and `stA10` (project B active). -/
theorem c10_mutations_frame_witness :
    (updateActiveProjectVideos (fun v => v.reverse) 9 stN10 = stN10
      ∧ handleFiles (some filesW5) genW5 9 stN10 = stN10
      ∧ addToGallery ("s") GalleryType.manual ("v.mp4") ("g9") 9 stN10 = stN10
      ∧ removeFromGallery ("gb") stN10 = stN10)
  ∧ (((updateActiveProjectVideos (fun v => v.reverse) 9 stA10).projects.filter
        (fun q => q.id != "B"))
      = stA10.projects.filter (fun q => q.id != "B")
    ∧ ((handleFiles (some filesW5) genW5 9 stA10).projects.filter
        (fun q => q.id != "B"))
      = stA10.projects.filter (fun q => q.id != "B")
    ∧ ((addToGallery ("s") GalleryType.manual ("v.mp4") ("g9") 9
          stA10).projects.filter (fun q => q.id != "B"))
      = stA10.projects.filter (fun q => q.id != "B")
    ∧ ((removeFromGallery ("gb") stA10).projects.filter
        (fun q => q.id != "B"))
      = stA10.projects.filter (fun q => q.id != "B")) :=
  ⟨(c10_mutations_frame stN10 ("B") (fun v => v.reverse) filesW5 genW5
      ("s") ("v.mp4") ("g9") ("gb") GalleryType.manual 9).1 rfl,
   (c10_mutations_frame stA10 ("B") (fun v => v.reverse) filesW5 genW5
      ("s") ("v.mp4") ("g9") ("gb") GalleryType.manual 9).2 rfl⟩

/-- C1 counterexample: removing a gallery item from the active project
is an accepted mutation of `galleryItems` (the state visibly changes),
yet `lastModified` does not increase — `removeFromGallery` never stamps
it. -/
theorem c1_counterexample :
    removeFromGallery ("g1") stC1 ≠ stC1
  ∧ lmOf (removeFromGallery ("g1") stC1) ("P") = lmOf stC1 ("P") := by
  constructor
  · decide
  · decide

/-- C1 (amended): `lastModified ≥ createdAt` is preserved by the store
mutations (for a clock that never precedes a project's creation);
accepted mutations of `videos` and gallery ADDITIONS stamp
`lastModified := now` (hence strictly increase it when `now` is later);
but gallery removals and batch deletes leave `lastModified` unchanged,
as do view-only switches. -/
theorem c1_lastModified_discipline (st : AppState) (pid : String)
    (p : Project) (f : List VideoItem → List VideoItem)
    (src videoName newId gid : String) (ty : GalleryType) (now : Nat)
    (v : EditorView)
    (hact : st.activeProjectId = some pid) (hne : pid ≠ "")
    (hp : findProject st pid = some p) (hlt : p.lastModified < now) :
    (invariantLM st → (∀ q ∈ st.projects, q.createdAt ≤ now) →
        invariantLM (updateActiveProjectVideos f now st)
      ∧ invariantLM (addToGallery src ty videoName newId now st)
      ∧ invariantLM (removeFromGallery gid st)
      ∧ invariantLM (deleteSelected st))
  ∧ lmOf (updateActiveProjectVideos f now st) pid = some now
  ∧ lmOf (addToGallery src ty videoName newId now st) pid = some now
  ∧ p.lastModified < now
  ∧ lmOf (removeFromGallery gid st) pid = some p.lastModified
  ∧ lmOf (deleteSelected st) pid = some p.lastModified
  ∧ (switchView v st).projects = st.projects := by
  have hcond : ¬ ((pid == "") = true) := by simpa using hne
  have h1 : (updateActiveProjectVideos f now st).projects
      = st.projects.map (fun proj =>
          if proj.id == pid then
            { proj with videos := f proj.videos, lastModified := now }
          else proj) := by
    simp [updateActiveProjectVideos, hact, hcond]
  have h2 : (addToGallery src ty videoName newId now st).projects
      = st.projects.map (fun proj =>
          if proj.id == pid then
            { proj with
              galleryItems :=
                { id := newId, src := src, type := ty
                , videoName := videoName, createdAt := now }
                  :: proj.galleryItems
            , lastModified := now }
          else proj) := by
    simp [addToGallery, hact, hcond]
  have h3 : (removeFromGallery gid st).projects
      = st.projects.map (fun proj =>
          if proj.id == pid then
            { proj with
              galleryItems :=
                proj.galleryItems.filter (fun item => item.id != gid) }
          else proj) := by
    simp [removeFromGallery, hact, hcond]
  have hap : activeProject st = some p := by
    simp [activeProject, hact, hp]
  have h4 : (deleteSelected st).projects
      = st.projects.map (fun proj =>
          if proj.id == pid then
            { proj with
              galleryItems := proj.galleryItems.filter (fun item =>
                !(st.selectedGalleryIds.contains item.id)) }
          else proj) := by
    simp [deleteSelected, hap, hact]
  have memInv : ∀ (P : List Project) (G : Project → Project),
      (∀ x ∈ P, x.createdAt ≤ x.lastModified → (G x).createdAt ≤ (G x).lastModified) →
      (∀ x ∈ P, x.createdAt ≤ x.lastModified) →
      ∀ q ∈ P.map G, q.createdAt ≤ q.lastModified := by
    intro P G hG hP q hq
    obtain ⟨x, hx, rfl⟩ := List.mem_map.mp hq
    exact hG x hx (hP x hx)
  refine ⟨?_, ?_, ?_, hlt, ?_, ?_, ?_⟩
  · intro hinv hnow
    refine ⟨?_, ?_, ?_, ?_⟩
    · intro q hq
      rw [h1] at hq
      refine memInv st.projects _ ?_ hinv q hq
      intro x hx hxi
      by_cases hb : (x.id == pid) = true
      · simp only [if_pos hb]
        exact hnow x hx
      · simp only [if_neg hb]
        exact hxi
    · intro q hq
      rw [h2] at hq
      refine memInv st.projects _ ?_ hinv q hq
      intro x hx hxi
      by_cases hb : (x.id == pid) = true
      · simp only [if_pos hb]
        exact hnow x hx
      · simp only [if_neg hb]
        exact hxi
    · intro q hq
      rw [h3] at hq
      refine memInv st.projects _ ?_ hinv q hq
      intro x hx hxi
      by_cases hb : (x.id == pid) = true
      · simp only [if_pos hb]
        exact hxi
      · simp only [if_neg hb]
        exact hxi
    · intro q hq
      rw [h4] at hq
      refine memInv st.projects _ ?_ hinv q hq
      intro x hx hxi
      by_cases hb : (x.id == pid) = true
      · simp only [if_pos hb]
        exact hxi
      · simp only [if_neg hb]
        exact hxi
  · have hfm := find?_map_update st.projects pid
      (fun proj =>
        { proj with videos := f proj.videos, lastModified := now })
      (fun x => rfl)
    rw [lmOf, findProject, h1, hfm,
      show st.projects.find? (fun q => q.id == pid) = some p from hp]
    rfl
  · have hfm := find?_map_update st.projects pid
      (fun proj =>
        { proj with
          galleryItems :=
            { id := newId, src := src, type := ty
            , videoName := videoName, createdAt := now }
              :: proj.galleryItems
        , lastModified := now })
      (fun x => rfl)
    rw [lmOf, findProject, h2, hfm,
      show st.projects.find? (fun q => q.id == pid) = some p from hp]
    rfl
  · have hfm := find?_map_update st.projects pid
      (fun proj =>
        { proj with
          galleryItems :=
            proj.galleryItems.filter (fun item => item.id != gid) })
      (fun x => rfl)
    rw [lmOf, findProject, h3, hfm,
      show st.projects.find? (fun q => q.id == pid) = some p from hp]
    rfl
  · have hfm := find?_map_update st.projects pid
      (fun proj =>
        { proj with
          galleryItems := proj.galleryItems.filter (fun item =>
            !(st.selectedGalleryIds.contains item.id)) })
      (fun x => rfl)
    rw [lmOf, findProject, h4, hfm,
      show st.projects.find? (fun q => q.id == pid) = some p from hp]
    rfl
  · simp [switchView, hact, hcond]

/-- Witness for the amended C1 at the concrete store `stC1`. -/
theorem c1_lastModified_discipline_witness :
    (invariantLM (updateActiveProjectVideos (fun v => v.reverse) 9 stC1)
      ∧ invariantLM (addToGallery ("s2") GalleryType.inicio ("v.mp4") ("g2")
          9 stC1)
      ∧ invariantLM (removeFromGallery ("g1") stC1)
      ∧ invariantLM (deleteSelected stC1))
  ∧ lmOf (updateActiveProjectVideos (fun v => v.reverse) 9 stC1) ("P")
      = some 9
  ∧ lmOf (addToGallery ("s2") GalleryType.inicio ("v.mp4") ("g2") 9 stC1)
      ("P") = some 9
  ∧ lmOf (removeFromGallery ("g1") stC1) ("P") = some 5
  ∧ lmOf (deleteSelected stC1) ("P") = some 5
  ∧ (switchView EditorView.timeline stC1).projects = stC1.projects := by
  have h := c1_lastModified_discipline stC1 ("P") pC1 (fun v => v.reverse)
    ("s2") ("v.mp4") ("g2") ("g1") GalleryType.inicio 9
    EditorView.timeline rfl (by decide) (by decide) (by decide)
  have hinv : invariantLM stC1 := by
    show ∀ q ∈ stC1.projects, q.createdAt ≤ q.lastModified
    decide
  exact ⟨h.1 hinv (by decide), h.2.1, h.2.2.1, h.2.2.2.2.1,
    h.2.2.2.2.2.1, h.2.2.2.2.2.2⟩

/-- C3 counterexample: with one existing project `A`, creating a new
project `N` yields the list `[N, A]` — the new project is PREPENDED,
not appended as the claim states. -/
theorem c3_counterexample :
    ((confirmCreateProject ("New") AspectKind.sixteenNine ("N") 7
        stC3).projects.map Project.id) = ["N", "A"]
  ∧ ((confirmCreateProject ("New") AspectKind.sixteenNine ("N") 7
        stC3).projects.map Project.id)
      ≠ stC3.projects.map Project.id ++ ["N"] := by
  constructor
  · decide
  · decide

/-- C3 (amended): `createProject` PREPENDS the new Project to the
store's sequence (it becomes the first element), makes it the active
project, and sets the view to Timeline — provided the trimmed name is
nonempty. -/
theorem c3_createProject_prepends (name : String) (ar : AspectKind)
    (newId : String) (now : Nat) (st : AppState)
    (h : ¬ jsTrim name = "") :
    (confirmCreateProject name ar newId now st).projects
        = { id := newId, name := name, aspect := ar, createdAt := now
          , lastModified := now, videos := []
          , galleryItems := [] } :: st.projects
  ∧ (confirmCreateProject name ar newId now st).activeProjectId
      = some newId
  ∧ (confirmCreateProject name ar newId now st).currentView
      = EditorView.timeline := by
  have hcond : ¬ ((jsTrim name == "") = true) := by simpa using h
  refine ⟨?_, ?_, ?_⟩ <;> simp [confirmCreateProject, hcond]

/-- Witness for the amended C3 on the concrete store `stC3`. -/
theorem c3_createProject_prepends_witness :
    (confirmCreateProject ("New") AspectKind.sixteenNine ("N") 7
        stC3).projects
      = { id := "N", name := "New", aspect := AspectKind.sixteenNine
        , createdAt := 7, lastModified := 7, videos := []
        , galleryItems := [] } :: stC3.projects
  ∧ (confirmCreateProject ("New") AspectKind.sixteenNine ("N") 7
        stC3).activeProjectId = some ("N")
  ∧ (confirmCreateProject ("New") AspectKind.sixteenNine ("N") 7
        stC3).currentView = EditorView.timeline :=
  c3_createProject_prepends ("New") AspectKind.sixteenNine ("N") 7 stC3
    (by decide)

/-- C4 counterexample: deleting video `v1` removes it from `videos` but
its playback handle `u1` is never revoked; and "removing" an absent id
is not a no-op — `lastModified` is still re-stamped. -/
theorem c4_counterexample :
    ((findProject (deleteVideo ("v1") 9 stC4) ("P")).map Project.videos
        = some [])
  ∧ (deleteVideo ("v1") 9 stC4).revokedUrls = []
  ∧ ((findProject (deleteVideo ("zzz") 9 stC4) ("P")).map Project.videos
        = (findProject stC4 ("P")).map Project.videos)
  ∧ lmOf (deleteVideo ("zzz") 9 stC4) ("P") = some 9
  ∧ lmOf stC4 ("P") = some 5 := by
  refine ⟨?_, ?_, ?_, ?_, ?_⟩ <;> decide

/-- C4 (amended): removing a video by id filters it out of the active
project's `videos` and re-stamps `lastModified` (even when the id is
absent), but does NOT revoke the playback handle; handles are revoked
by `deleteProject` (and on teardown), not by per-video removal. -/
theorem c4_deleteVideo_no_revoke (st : AppState) (pid : String)
    (p : Project) (vid : String) (now : Nat)
    (hact : st.activeProjectId = some pid) (hne : pid ≠ "")
    (hp : findProject st pid = some p) :
    findProject (deleteVideo vid now st) pid
        = some { p with
                   videos := p.videos.filter (fun i => i.id != vid),
                   lastModified := now }
  ∧ (deleteVideo vid now st).revokedUrls = st.revokedUrls
  ∧ (deleteProject pid st).revokedUrls
      = st.revokedUrls ++ p.videos.map VideoItem.url := by
  have hcond : ¬ ((pid == "") = true) := by simpa using hne
  refine ⟨?_, ?_, ?_⟩
  · rw [deleteVideo, findProject]
    have h1 : (updateActiveProjectVideos
        (fun v => v.filter (fun i => i.id != vid)) now st).projects
        = st.projects.map (fun proj =>
            if proj.id == pid then
              { proj with
                videos := proj.videos.filter (fun i => i.id != vid)
              , lastModified := now }
            else proj) := by
      simp [updateActiveProjectVideos, hact, hcond]
    have hfm := find?_map_update st.projects pid
      (fun proj =>
        { proj with
          videos := proj.videos.filter (fun i => i.id != vid)
        , lastModified := now })
      (fun x => rfl)
    rw [h1, hfm,
      show st.projects.find? (fun q => q.id == pid) = some p from hp]
    rfl
  · simp [deleteVideo, updateActiveProjectVideos, hact, hcond]
  · simp [deleteProject, hp]

/-- Witness for the amended C4 at the concrete store `stC4`. -/
theorem c4_deleteVideo_no_revoke_witness :
    findProject (deleteVideo ("v1") 9 stC4) ("P")
        = some { pC4 with
                   videos := pC4.videos.filter (fun i => i.id != "v1"),
                   lastModified := 9 }
  ∧ (deleteVideo ("v1") 9 stC4).revokedUrls = stC4.revokedUrls
  ∧ (deleteProject ("P") stC4).revokedUrls
      = stC4.revokedUrls ++ pC4.videos.map VideoItem.url :=
  c4_deleteVideo_no_revoke stC4 ("P") pC4 ("v1") 9 rfl (by decide)
    (by decide)

/-- C5: `handleFiles` keeps exactly the video-kind inputs (non-video
inputs are silently dropped) and appends the accepted items to the end
of the active project's `videos`, preserving their original relative
order and names. -/
theorem c5_handleFiles_appends (st : AppState) (pid : String) (p : Project)
    (files : List MFile) (gen : Nat → String × String) (now : Nat)
    (hact : st.activeProjectId = some pid) (hne : pid ≠ "")
    (hp : findProject st pid = some p) :
    findProject (handleFiles (some files) gen now st) pid
        = some { p with
                 videos := p.videos ++ newVideoItems files gen,
                 lastModified := now }
  ∧ (newVideoItems files gen).map VideoItem.name
      = (files.filter isVideoFile).map MFile.name
  ∧ (newVideoItems files gen).length
      = (files.filter isVideoFile).length := by
  have hcond : ¬ ((pid == "") = true) := by simpa using hne
  refine ⟨?_, ?_, ?_⟩
  · have h2 : (handleFiles (some files) gen now st).projects
        = st.projects.map (fun proj =>
            if proj.id == pid then
              { proj with
                videos := proj.videos ++ newVideoItems files gen
              , lastModified := now }
            else proj) := by
      simp [handleFiles, updateActiveProjectVideos, hact, hcond]
    have hfm := find?_map_update st.projects pid
      (fun proj =>
        { proj with
          videos := proj.videos ++ newVideoItems files gen
        , lastModified := now })
      (fun x => rfl)
    rw [findProject, h2, hfm,
      show st.projects.find? (fun q => q.id == pid) = some p from hp]
    rfl
  · rw [newVideoItems, List.map_map]
    have hcomp : (VideoItem.name ∘ fun pr : Nat × MFile =>
        ({ id := (gen pr.1).1, file := pr.2, url := (gen pr.1).2
         , name := pr.2.name } : VideoItem))
        = MFile.name ∘ Prod.snd := rfl
    rw [hcomp, ← List.map_map, List.enum_map_snd]
  · rw [newVideoItems, List.length_map, List.enum_length]

/-- Witness for C5: importing 3 files (file 2 is not a video) into a
project holding one video yields a list 2 longer, the two accepted
files appended at the end in their original order. -/
theorem c5_handleFiles_appends_witness :
    findProject (handleFiles (some filesW5) genW5 9 stW5) ("P")
        = some { pW5 with
                 videos := pW5.videos ++ newVideoItems filesW5 genW5,
                 lastModified := 9 }
  ∧ (newVideoItems filesW5 genW5).map VideoItem.name
      = (filesW5.filter isVideoFile).map MFile.name
  ∧ (newVideoItems filesW5 genW5).length
      = (filesW5.filter isVideoFile).length
  ∧ ((findProject (handleFiles (some filesW5) genW5 9 stW5) ("P")).map
      (fun q => q.videos.map VideoItem.name))
      = some ["v0.mp4", "a.mp4", "c.mp4"]
  ∧ ((findProject (handleFiles (some filesW5) genW5 9 stW5) ("P")).map
      (fun q => q.videos.length)) = some (1 + 2) := by
  have h := c5_handleFiles_appends stW5 ("P") pW5 filesW5 genW5 9 rfl
    (by decide) (by decide)
  exact ⟨h.1, h.2.1, h.2.2, by decide, by decide⟩

/-- C9: `removeFromGallery` deletes the entry with the given id from
the active project's `galleryItems`, removes the id from the pending
batch-selection set, and is idempotent — a second call with the same id
leaves the whole state unchanged. -/
theorem c9_removeFromGallery_idempotent (st : AppState) (pid : String)
    (p : Project) (gid : String)
    (hact : st.activeProjectId = some pid) (hne : pid ≠ "")
    (hp : findProject st pid = some p) :
    findProject (removeFromGallery gid st) pid
        = some { p with
                 galleryItems :=
                   p.galleryItems.filter (fun item => item.id != gid) }
  ∧ (removeFromGallery gid st).selectedGalleryIds
      = st.selectedGalleryIds.filter (fun x => x != gid)
  ∧ removeFromGallery gid (removeFromGallery gid st)
      = removeFromGallery gid st := by
  have hcond : ¬ ((pid == "") = true) := by simpa using hne
  have h3 : (removeFromGallery gid st).projects
      = st.projects.map (fun proj =>
          if proj.id == pid then
            { proj with
              galleryItems :=
                proj.galleryItems.filter (fun item => item.id != gid) }
          else proj) := by
    simp [removeFromGallery, hact, hcond]
  have hsel : (removeFromGallery gid st).selectedGalleryIds
      = st.selectedGalleryIds.filter (fun x => x != gid) := by
    simp [removeFromGallery, hact, hcond]
  have hact' : (removeFromGallery gid st).activeProjectId = some pid := by
    simp [removeFromGallery, hact, hcond]
  refine ⟨?_, hsel, ?_⟩
  · have hfm := find?_map_update st.projects pid
      (fun proj =>
        { proj with
          galleryItems :=
            proj.galleryItems.filter (fun item => item.id != gid) })
      (fun x => rfl)
    rw [findProject, h3, hfm,
      show st.projects.find? (fun q => q.id == pid) = some p from hp]
    rfl
  · have hGidem : ∀ x : Project,
        (fun proj =>
          if proj.id == pid then
            { proj with
              galleryItems :=
                proj.galleryItems.filter (fun item => item.id != gid) }
          else proj)
        ((fun proj =>
          if proj.id == pid then
            { proj with
              galleryItems :=
                proj.galleryItems.filter (fun item => item.id != gid) }
          else proj) x)
        = (fun proj =>
          if proj.id == pid then
            { proj with
              galleryItems :=
                proj.galleryItems.filter (fun item => item.id != gid) }
          else proj) x := by
      intro x
      by_cases hb : (x.id == pid) = true
      · simp only [if_pos hb, filter_self_eq]
      · simp only [if_neg hb]
    have hrest : ∀ st₂ : AppState, st₂.activeProjectId = some pid →
        removeFromGallery gid st₂
          = { st₂ with
              projects := st₂.projects.map (fun proj =>
                if proj.id == pid then
                  { proj with
                    galleryItems :=
                      proj.galleryItems.filter (fun item => item.id != gid) }
                else proj)
            , selectedGalleryIds :=
                st₂.selectedGalleryIds.filter (fun x => x != gid) } := by
      intro st₂ ha
      simp [removeFromGallery, ha, hcond]
    have e1 := hrest st hact
    have e2 := hrest (removeFromGallery gid st) hact'
    have hm := map_self_eq (fun proj =>
        if proj.id == pid then
          { proj with
            galleryItems :=
              proj.galleryItems.filter (fun item => item.id != gid) }
        else proj) hGidem st.projects
    have hf := filter_self_eq (fun x => x != gid) st.selectedGalleryIds
    rw [e2, e1]
    congr 1

/-- Witness for C9 at the concrete store `stW9` (two gallery items,
both selected). -/
theorem c9_removeFromGallery_idempotent_witness :
    findProject (removeFromGallery ("g1") stW9) ("P")
        = some { pW9 with
                 galleryItems :=
                   pW9.galleryItems.filter (fun item => item.id != "g1") }
  ∧ (removeFromGallery ("g1") stW9).selectedGalleryIds
      = stW9.selectedGalleryIds.filter (fun x => x != "g1")
  ∧ removeFromGallery ("g1") (removeFromGallery ("g1") stW9)
      = removeFromGallery ("g1") stW9 :=
  c9_removeFromGallery_idempotent stW9 ("P") pW9 ("g1") rfl (by decide)
    (by decide)

/-- C2 counterexample: a selection of N = 2 distinct gallery items of
the active project whose derived filenames collide (same video name,
same tag, ids sharing their first 4 characters) produces an archive
with a single entry, not 2. -/
theorem c2_counterexample :
    (["aaaa1", "aaaa2"] : List String).Nodup
  ∧ ((galC2.find? (fun i => i.id == "aaaa1")).isSome) = true
  ∧ ((galC2.find? (fun i => i.id == "aaaa2")).isSome) = true
  ∧ (["aaaa1", "aaaa2"] : List String).length = 2
  ∧ (downloadBatchZipEntries ["aaaa1", "aaaa2"] galC2).length = 1 := by
  refine ⟨?_, ?_, ?_, ?_, ?_⟩ <;> decide

/-- C2 (amended): batch export adds one archive entry per selected id
found in the gallery, overwriting on name collision; whenever the
derived filenames (video name without extension + type + 4-character id
prefix) of the selected items are pairwise distinct, the archive holds
exactly N entries with pairwise-distinct names. -/
theorem c2_batch_zip_entries (selected : List String)
    (gallery : List GalleryItem)
    (hfound : ∀ gid ∈ selected,
      ((gallery.find? (fun i => i.id == gid)).isSome) = true)
    (hnames : (selected.filterMap (fun gid =>
        (gallery.find? (fun i => i.id == gid)).map batchFileName)).Nodup) :
    (downloadBatchZipEntries selected gallery).length = selected.length
  ∧ ((downloadBatchZipEntries selected gallery).map Prod.fst).Nodup := by
  have hzip := zip_foldl_spec gallery selected [] hfound
    (by simpa using hnames)
  have hentries : downloadBatchZipEntries selected gallery
      = selected.filterMap (fun gid =>
          (gallery.find? (fun i => i.id == gid)).map (fun it =>
            (batchFileName it, base64DataOf it))) := by
    rw [downloadBatchZipEntries, hzip]
    simp
  constructor
  · rw [hentries]
    refine filterMap_length_of_isSome _ selected ?_
    intro gid hgid
    rw [Option.isSome_map']
    exact hfound gid hgid
  · rw [hentries, List.map_filterMap]
    have hcomp : (fun gid => Option.map Prod.fst
        ((gallery.find? (fun i => i.id == gid)).map (fun it =>
          (batchFileName it, base64DataOf it))))
        = fun gid =>
            (gallery.find? (fun i => i.id == gid)).map batchFileName := by
      funext gid
      rw [Option.map_map]
      rfl
    rw [hcomp]
    exact hnames

/-- Witness for the amended C2: two selected items with distinct
derived names produce exactly 2 entries with distinct names. -/
theorem c2_batch_zip_entries_witness :
    (downloadBatchZipEntries ["aaaa1", "bbbb1"] galW2).length
        = (["aaaa1", "bbbb1"] : List String).length
  ∧ ((downloadBatchZipEntries ["aaaa1", "bbbb1"] galW2).map
      Prod.fst).Nodup :=
  c2_batch_zip_entries ["aaaa1", "bbbb1"] galW2 (by decide) (by decide)

/-- C6 counterexample: `processAutomaticFrames` requests the first
frame at exactly timestamp 0, not at `0 + ε` with `ε ≈ 0.1s`. -/
theorem c6_counterexample :
    autoFirstCaptureTime = 0
  ∧ autoFirstCaptureTime ≠ 0 + (0.1 : ℚ) := by
  constructor
  · rfl
  · rw [autoFirstCaptureTime]
    norm_num

/-- C6 (amended): last-frame capture is requested at
`max 0 (duration − 0.1)` in both implementations — at 9.9s for a 10.0s
video, never at 10.0s; first-frame capture is requested at 0.1s by
`generateThumbs` but at exactly 0s by `processAutomaticFrames`. -/
theorem c6_capture_timestamps (d : ℚ) (hd : (0.1 : ℚ) ≤ d) :
    thumbFirstCaptureTime = 0 + (0.1 : ℚ)
  ∧ autoFirstCaptureTime = 0
  ∧ thumbLastCaptureTime d = d - (0.1 : ℚ)
  ∧ autoLastCaptureTime d = d - (0.1 : ℚ)
  ∧ autoLastCaptureTime 10 = (9.9 : ℚ)
  ∧ (9.9 : ℚ) ≠ (10 : ℚ) := by
  have hmax : max (0 : ℚ) (d - (0.1 : ℚ)) = d - (0.1 : ℚ) :=
    max_eq_right (by linarith)
  refine ⟨by norm_num [thumbFirstCaptureTime], rfl, ?_, ?_, ?_,
    by norm_num⟩
  · rw [thumbLastCaptureTime, hmax]
  · rw [autoLastCaptureTime, hmax]
  · rw [autoLastCaptureTime]
    norm_num

/-- Witness for the amended C6 at duration 10.0s. -/
theorem c6_capture_timestamps_witness :
    thumbFirstCaptureTime = 0 + (0.1 : ℚ)
  ∧ autoFirstCaptureTime = 0
  ∧ thumbLastCaptureTime 10 = (10 : ℚ) - (0.1 : ℚ)
  ∧ autoLastCaptureTime 10 = (10 : ℚ) - (0.1 : ℚ)
  ∧ autoLastCaptureTime 10 = (9.9 : ℚ)
  ∧ (9.9 : ℚ) ≠ (10 : ℚ) :=
  c6_capture_timestamps 10 (by norm_num)

end FF
